import Mathlib

/-!
Shallow embedding of the host-side contract revision protocol
(`modules/host/negotiaterevisecontract.go`): the storage obligation record,
the batch modification processor inside `managedRevisionIteration`, the
`verifyRevision` check, and the session loop `managedRPCReviseContract`.

Modelling conventions:
- `types.Currency` is an unbounded non-negative big integer in the source;
  it is modelled as `Nat` (its `Add`/`Mul` are exact).
- `crypto.Hash` values and sector bytes are modelled as `Nat`; the external
  `crypto.MerkleRoot` function is an abstract parameter `merkleRoot`.
- `uint64` arithmetic that can wrap is modelled explicitly modulo `2 ^ 64`
  (`sub64`, `add64`); values are intended to be `< 2 ^ 64`.
- The external sector store `h.readSector` is an abstract
  `Nat → Option (List Nat)` parameter; `none` models a read failure.
-/

set_option autoImplicit false

namespace SiaHost

/-- Go `uint64` modulus. -/
def U64 : Nat := 2 ^ 64

/-- Go `uint64` subtraction `a - b` for `a b < 2 ^ 64`: wraps modulo `2 ^ 64`. -/
def sub64 (a b : Nat) : Nat := (a % U64 + (U64 - b % U64)) % U64

/-- Go `uint64` addition `a + b`: wraps modulo `2 ^ 64`. -/
def add64 (a b : Nat) : Nat := (a + b) % U64

/-- The validation errors of the modification batch loop
(source lines 22-43), plus the propagated `h.readSector` failure of the
`ActionModify` branch (source line 144). -/
inductive RevErr
  | errBadModificationIndex
  | errBadSectorSize
  | errIllegalOffsetAndLength
  | errLargeSector
  | errUnknownModification
  | readSectorFailed
  deriving DecidableEq, Repr

/-- The type tag of `modules.RevisionAction` (`types.Specifier` in the source).
`actionOther` stands for every specifier other than the three recognized ones,
which the source handles with a final `else` branch (line 159). -/
inductive ActionType
  | actionInsert
  | actionDelete
  | actionModify
  | actionOther
  deriving DecidableEq, Repr

/-- Go `modules.RevisionAction`: one renter-submitted modification.
The Go field `Type` is a reserved word in Lean and is named `actionType`. -/
structure RevisionAction where
  actionType : ActionType
  SectorIndex : Nat
  Offset : Nat
  Data : List Nat
  deriving DecidableEq, Repr

/-- Go `storageObligation`: the fields read and written by
`managedRevisionIteration`. The field `ProofDeadline` backs the method
`proofDeadline` below. -/
structure storageObligation where
  SectorRoots : List Nat
  AnticipatedRevenue : Nat
  ConfirmedRevenue : Nat
  RiskedCollateral : Nat
  ProofDeadline : Nat
  deriving DecidableEq, Repr

/-- Modelled from the spec: the method `so.proofDeadline()` is defined outside
the provided sources. Per the spec the obligation carries "a proof deadline
(block height)"; the method returns it. -/
def storageObligation.proofDeadline (so : storageObligation) : Nat :=
  so.ProofDeadline

/-- The per-round snapshot used by the batch loop: the settings fields it
reads (`MaxReviseBatchSize` is only a wire bound and is not modelled), the
block height snapshot, and the external collaborators `crypto.MerkleRoot`
and `h.readSector`. -/
structure Env where
  sectorSize : Nat
  blockHeight : Nat
  MinimumUploadBandwidthPrice : Nat
  MinimumStoragePrice : Nat
  Collateral : Nat
  merkleRoot : List Nat → Nat
  readSector : Nat → Option (List Nat)

/-- The mutable state of one batch: `so.SectorRoots` (mutated in place by the
source loop) together with the round accumulators declared at source
lines 87-92. -/
structure BatchState where
  SectorRoots : List Nat
  bandwidthRevenue : Nat
  storageRevenue : Nat
  collateralRisked : Nat
  sectorsRemoved : List Nat
  sectorsGained : List Nat
  gainedSectorData : List (List Nat)
  deriving DecidableEq, Repr

/-- The batch state at the start of a round: the obligation sector roots and
zeroed accumulators. -/
def initialBatchState (so : storageObligation) : BatchState :=
  { SectorRoots := so.SectorRoots
    bandwidthRevenue := 0
    storageRevenue := 0
    collateralRisked := 0
    sectorsRemoved := []
    sectorsGained := []
    gainedSectorData := [] }

/-- The effect of Go `copy(sector[offset:], data)` followed by reading back
`sector`: overlays `min data.length (sector.length - offset)` bytes of `data`
onto `sector` starting at `offset`; the result keeps the length of `sector`
whenever `offset ≤ sector.length`. -/
def goCopy (sector : List Nat) (offset : Nat) (data : List Nat) : List Nat :=
  sector.take offset ++ data.take (sector.length - offset)
    ++ sector.drop (offset + data.length)

/-- One iteration of the modification loop of `managedRevisionIteration`
(source lines 94-162), acting on the current batch state:
index bound check, payload size check, then the `ActionDelete`,
`ActionInsert`, `ActionModify` and unknown-type branches. -/
def applyModification (env : Env) (proofDeadline : Nat) (st : BatchState)
    (m : RevisionAction) : Except RevErr BatchState :=
  if (if m.actionType = ActionType.actionInsert then
        m.SectorIndex > st.SectorRoots.length
      else m.SectorIndex ≥ st.SectorRoots.length) then
    Except.error RevErr.errBadModificationIndex
  else if m.Data.length > env.sectorSize then
    Except.error RevErr.errLargeSector
  else if m.actionType = ActionType.actionDelete then
    Except.ok { st with
      sectorsRemoved := st.sectorsRemoved ++ [st.SectorRoots.getD m.SectorIndex 0]
      SectorRoots := st.SectorRoots.take m.SectorIndex
        ++ st.SectorRoots.drop (m.SectorIndex + 1) }
  else if m.actionType = ActionType.actionInsert then
    if m.Data.length ≠ env.sectorSize then
      Except.error RevErr.errBadSectorSize
    else
      let blocksRemaining := sub64 proofDeadline env.blockHeight
      let blockBytesCurrency := blocksRemaining * env.sectorSize
      let newRoot := env.merkleRoot m.Data
      Except.ok { st with
        bandwidthRevenue := st.bandwidthRevenue
          + env.MinimumUploadBandwidthPrice * env.sectorSize
        storageRevenue := st.storageRevenue
          + env.MinimumStoragePrice * blockBytesCurrency
        collateralRisked := st.collateralRisked
          + env.Collateral * blockBytesCurrency
        sectorsGained := st.sectorsGained ++ [newRoot]
        gainedSectorData := st.gainedSectorData ++ [m.Data]
        SectorRoots := st.SectorRoots.take m.SectorIndex
          ++ newRoot :: st.SectorRoots.drop m.SectorIndex }
  else if m.actionType = ActionType.actionModify then
    if m.Offset > env.sectorSize
        ∨ add64 m.Offset m.Data.length > env.sectorSize then
      Except.error RevErr.errIllegalOffsetAndLength
    else
      match env.readSector (st.SectorRoots.getD m.SectorIndex 0) with
      | none => Except.error RevErr.readSectorFailed
      | some sector =>
        let newSector := goCopy sector m.Offset m.Data
        let newRoot := env.merkleRoot newSector
        Except.ok { st with
          bandwidthRevenue := st.bandwidthRevenue
            + env.MinimumUploadBandwidthPrice * env.sectorSize
          sectorsRemoved := st.sectorsRemoved
            ++ [st.SectorRoots.getD m.SectorIndex 0]
          sectorsGained := st.sectorsGained ++ [newRoot]
          gainedSectorData := st.gainedSectorData ++ [newSector]
          SectorRoots := st.SectorRoots.set m.SectorIndex newRoot }
  else
    Except.error RevErr.errUnknownModification

/-- The whole modification loop (source lines 93-164). The source mutates
`so.SectorRoots` and the accumulators in place and aborts the loop at the
first error, so on error the returned state carries the mutations of the
already-processed prefix (the error of each iteration is raised before that
iteration mutates anything). -/
def processModificationBatch (env : Env) (proofDeadline : Nat) :
    List RevisionAction → BatchState → BatchState × Option RevErr
  | [], st => (st, none)
  | m :: ms, st =>
    match applyModification env proofDeadline st m with
    | Except.error e => (st, some e)
    | Except.ok st₁ => processModificationBatch env proofDeadline ms st₁

/-- The errors a revision round can end with, beyond the batch validation
errors: the stop sentinel, network failures, the hard errors of the
signature step, and the commit failure. -/
inductive RoundError
  | stopResponse
  | ioFailure
  | revErr (e : RevErr)
  | signFailed
  | standaloneInvalid
  | wholeTransactionCovered
  | commitFailed
  deriving DecidableEq, Repr

/-- Go `types.FileContractRevision`, reduced to the fields this file reads.
The stub `verifyRevision` of the source reads none of them; the revision
number is kept so its intended check is statable. -/
structure FileContractRevision where
  ParentID : Nat
  NewRevisionNumber : Nat
  deriving DecidableEq, Repr

/-- Go `types.TransactionSignature` as read from the renter, reduced to the
one field the source inspects (`CoveredFields.WholeTransaction`,
source line 223). -/
structure TransactionSignature where
  WholeTransaction : Bool
  deriving DecidableEq, Repr

/-- Faithful embedding of `verifyRevision` (source lines 281-296): the body
is only TODO comments and returns `nil` for every input, so no proposal is
ever rejected here. -/
def verifyRevision (so : storageObligation) (revision : FileContractRevision)
    (storageRevenue bandwidthRevenue collateralRisked : Nat) :
    Option RoundError :=
  none

/-- The frames `managedRevisionIteration` writes to the connection, in
order: the settings object, acceptance frames, error-bearing rejection
frames, and the final host signature object. -/
inductive WireMsg
  | settings
  | acceptance
  | rejection (e : RoundError)
  | hostSignature
  deriving DecidableEq, Repr

/-- Whether a wire frame is a rejection frame. -/
def WireMsg.isRejection : WireMsg → Bool
  | WireMsg.rejection _ => true
  | _ => false

/-- Modelled from the spec: `modules.WriteNegotiationRejection` is defined
outside the provided sources. Per the spec a rejection "is conveyed by
writing an error-bearing rejection frame" carrying the specific reason, and
the caller returns that same error to end the session; the write itself is
modelled as succeeding. -/
def writeNegotiationRejection (writes : List WireMsg) (e : RoundError) :
    List WireMsg × Option RoundError :=
  (writes ++ [WireMsg.rejection e], some e)

/-- The outcomes of the external reads, writes and calls one round performs,
in source order. A `none`/`false` models the corresponding failure; read
oracles carry the value the renter sent. -/
structure RoundOracle where
  settingsRPCOk : Bool
  acceptanceRead : Option RoundError
  modificationsRead : Option (List RevisionAction)
  revisionRead : Option FileContractRevision
  acceptanceWriteOk : Bool
  renterSigRead : Option TransactionSignature
  signOk : Bool
  standaloneValid : Bool
  commitOk : Bool
  finalAcceptanceWriteOk : Bool
  finalSigWriteOk : Bool

/-- The result of one round: the obligation as the round leaves it (the
source mutates `so` through a pointer), the frames written to the peer, and
the error the round returns (`none` is a completed round). -/
structure RoundResult where
  so : storageObligation
  writes : List WireMsg
  outcome : Option RoundError
  deriving Repr

/-- Embedding of `managedRevisionIteration` (source lines 45-241), with each
external interaction resolved by the oracle: settings RPC, acceptance read,
batch read and processing, revision read, `verifyRevision`, acceptance
write, renter signature read, host signing, `StandaloneValid`, the
whole-transaction check, the counter updates, `modifyStorageObligation`, and
the final acceptance and signature writes. -/
def managedRevisionIteration (env : Env) (o : RoundOracle)
    (so : storageObligation) : RoundResult :=
  if ¬ o.settingsRPCOk then ⟨so, [], some RoundError.ioFailure⟩ else
  let w₀ := [WireMsg.settings]
  match o.acceptanceRead with
  | some e => ⟨so, w₀, some e⟩
  | none =>
  match o.modificationsRead with
  | none => ⟨so, w₀, some RoundError.ioFailure⟩
  | some modifications =>
  let pr := processModificationBatch env so.proofDeadline modifications
    (initialBatchState so)
  let bst := pr.1
  let so₁ := { so with SectorRoots := bst.SectorRoots }
  match pr.2 with
  | some e =>
    let wr := writeNegotiationRejection w₀ (RoundError.revErr e)
    ⟨so₁, wr.1, wr.2⟩
  | none =>
  match o.revisionRead with
  | none => ⟨so₁, w₀, some RoundError.ioFailure⟩
  | some revision =>
  match verifyRevision so₁ revision bst.storageRevenue bst.bandwidthRevenue
      bst.collateralRisked with
  | some e =>
    let wr := writeNegotiationRejection w₀ e
    ⟨so₁, wr.1, wr.2⟩
  | none =>
  if ¬ o.acceptanceWriteOk then ⟨so₁, w₀, some RoundError.ioFailure⟩ else
  let w₁ := w₀ ++ [WireMsg.acceptance]
  match o.renterSigRead with
  | none => ⟨so₁, w₁, some RoundError.ioFailure⟩
  | some renterSig =>
  if ¬ o.signOk then ⟨so₁, w₁, some RoundError.signFailed⟩ else
  if ¬ o.standaloneValid then
    let wr := writeNegotiationRejection w₁ RoundError.standaloneInvalid
    ⟨so₁, wr.1, wr.2⟩
  else if renterSig.WholeTransaction then
    ⟨so₁, w₁, some RoundError.wholeTransactionCovered⟩
  else
  let so₂ := { so₁ with
    AnticipatedRevenue := so₁.AnticipatedRevenue + bst.storageRevenue
    ConfirmedRevenue := so₁.ConfirmedRevenue + bst.bandwidthRevenue
    RiskedCollateral := so₁.RiskedCollateral + bst.collateralRisked }
  if ¬ o.commitOk then
    let wr := writeNegotiationRejection w₁ RoundError.commitFailed
    ⟨so₂, wr.1, wr.2⟩
  else if ¬ o.finalAcceptanceWriteOk then
    ⟨so₂, w₁, some RoundError.ioFailure⟩
  else
  let w₂ := w₁ ++ [WireMsg.acceptance]
  if ¬ o.finalSigWriteOk then ⟨so₂, w₂, some RoundError.ioFailure⟩
  else ⟨so₂, w₂ ++ [WireMsg.hostSignature], none⟩

/-- The observable lock events of a session on the obligation lock. -/
inductive SessionEvent
  | lockAcquired
  | roundRun
  | lockReleased
  deriving DecidableEq, Repr

/-- The revision loop of `managedRPCReviseContract` (source lines 268-277).
The wall-clock guard `time.Now().Before(startTime.Add(1200 * time.Second))`
is modelled by the finite oracle list: each element is one iteration the
clock still permits. A stop response ends the loop without error; any other
error ends it with that error. -/
def revisionLoop (env : Env) :
    List RoundOracle → storageObligation →
    storageObligation × List SessionEvent × Option RoundError
  | [], so => (so, [], none)
  | o :: os, so =>
    match managedRevisionIteration env o so with
    | ⟨so₁, _, some RoundError.stopResponse⟩ =>
      (so₁, [SessionEvent.roundRun], none)
    | ⟨so₁, _, some e⟩ => (so₁, [SessionEvent.roundRun], some e)
    | ⟨so₁, _, none⟩ =>
      ((revisionLoop env os so₁).1,
        SessionEvent.roundRun :: (revisionLoop env os so₁).2.1,
        (revisionLoop env os so₁).2.2)

/-- Embedding of `managedRPCReviseContract` (source lines 243-279):
fetch the recent revision and obligation (`none` models a failure), acquire
the obligation lock (failing fast when `lockOk` is false), defer its release
— the release event is appended to the trace on every exit path of the
loop, as Go `defer` runs on every return — and run the revision loop. -/
def managedRPCReviseContract (env : Env)
    (recentRevision : Option storageObligation) (lockOk : Bool)
    (oracles : List RoundOracle) :
    List SessionEvent × Option RoundError :=
  match recentRevision with
  | none => ([], some RoundError.ioFailure)
  | some so =>
    if ¬ lockOk then ([], some RoundError.ioFailure)
    else
      let r := revisionLoop env oracles so
      (SessionEvent.lockAcquired :: r.2.1 ++ [SessionEvent.lockReleased],
        r.2.2)

/-- Concrete environment used by the witnesses: sector size 4, block height
10, unit prices 3, 5 and 7, an executable stand-in content hash, and a
sector store holding one sector of length 4 under root 42. -/
def envW : Env :=
  { sectorSize := 4
    blockHeight := 10
    MinimumUploadBandwidthPrice := 3
    MinimumStoragePrice := 5
    Collateral := 7
    merkleRoot := fun data => data.foldl (fun a b => 31 * a + b) 7
    readSector := fun r => if r = 42 then some [9, 8, 7, 6] else none }

/-- Concrete obligation used by several witnesses: one sector root 42,
counters 1, 2, 3 and proof deadline 100. -/
def soW : storageObligation := ⟨[42], 1, 2, 3, 100⟩

/-- A round oracle on which every external interaction succeeds and the
renter sends an empty batch, a well-formed revision and a narrow
signature. -/
def oracleOK : RoundOracle :=
  { settingsRPCOk := true
    acceptanceRead := none
    modificationsRead := some []
    revisionRead := some ⟨0, 1⟩
    acceptanceWriteOk := true
    renterSigRead := some ⟨false⟩
    signOk := true
    standaloneValid := true
    commitOk := true
    finalAcceptanceWriteOk := true
    finalSigWriteOk := true }

/-- An otherwise successful round in which the renter signature claims to
cover the whole transaction. -/
def oracleC3 : RoundOracle := { oracleOK with renterSigRead := some ⟨true⟩ }

/-- An otherwise successful round in which the signed transaction fails the
standalone validation. -/
def oracleC3a : RoundOracle := { oracleOK with standaloneValid := false }

/-- A round whose batch fails validation midway: the second Delete hits an
index that no longer exists after the first Delete. -/
def oracleC1 : RoundOracle :=
  { oracleOK with
    modificationsRead := some [⟨ActionType.actionDelete, 0, 0, []⟩,
      ⟨ActionType.actionDelete, 0, 0, []⟩] }

/-- A round with one valid Insert on which the commit step
(`modifyStorageObligation`) fails. -/
def oracleC1b : RoundOracle := { oracleOK with
  modificationsRead := some [⟨ActionType.actionInsert, 0, 0, [1, 2, 3, 4]⟩]
  commitOk := false }

-- Helper: Go uint64 subtraction computes the exact difference when the
-- minuend is at least the subtrahend and both operands are in range.
theorem sub64_eq_of_le (a b : Nat) (ha : a < U64) (hb : b < U64)
    (h : b ≤ a) : sub64 a b = a - b := by
  unfold sub64
  rw [Nat.mod_eq_of_lt ha, Nat.mod_eq_of_lt hb]
  have hrw : a + (U64 - b) = (a - b) + U64 := by omega
  rw [hrw, Nat.add_mod_right, Nat.mod_eq_of_lt (by omega)]

-- Helper: Go uint64 subtraction wraps when the minuend is smaller.
theorem sub64_eq_of_lt (a b : Nat) (ha : a < U64) (hb : b < U64)
    (h : a < b) : sub64 a b = U64 - (b - a) := by
  unfold sub64
  rw [Nat.mod_eq_of_lt ha, Nat.mod_eq_of_lt hb]
  rw [Nat.mod_eq_of_lt (by omega)]
  omega

/-- C2: the claim states that `verifyRevision` rejects every proposal whose
revision number is not strictly greater than the prior one, even when all
other fields are correct. In the source `verifyRevision` is an
unimplemented stub whose body is only TODO comments (among them "Check that
the revision number has increased") and returns nil, so no proposal is ever
rejected: the result is `none` (accept) for every prior state, every
accumulated delta and every proposal, in particular for a proposal whose
revision number equals the prior one. -/
theorem verifyRevision_accepts_stale_revision_number
    (so : storageObligation) (revision : FileContractRevision)
    (s b c : Nat) :
    verifyRevision so revision s b c = none :=
  rfl

/-- C6: processing a valid Insert at block height `blockHeight ≤ d` (the
proof deadline) changes the accumulators by exactly
`bandwidthRevenue += MinimumUploadBandwidthPrice * sectorSize`,
`storageRevenue += MinimumStoragePrice * ((d - blockHeight) * sectorSize)`
and `collateralRisked += Collateral * ((d - blockHeight) * sectorSize)`,
in exact integer arithmetic. -/
theorem insert_finances_exact (env : Env) (d : Nat) (st : BatchState)
    (m : RevisionAction)
    (hty : m.actionType = ActionType.actionInsert)
    (hidx : m.SectorIndex ≤ st.SectorRoots.length)
    (hlen : m.Data.length = env.sectorSize)
    (hd : d < U64) (hh : env.blockHeight < U64)
    (hle : env.blockHeight ≤ d) :
    applyModification env d st m = Except.ok { st with
      bandwidthRevenue := st.bandwidthRevenue
        + env.MinimumUploadBandwidthPrice * env.sectorSize
      storageRevenue := st.storageRevenue
        + env.MinimumStoragePrice * ((d - env.blockHeight) * env.sectorSize)
      collateralRisked := st.collateralRisked
        + env.Collateral * ((d - env.blockHeight) * env.sectorSize)
      sectorsGained := st.sectorsGained ++ [env.merkleRoot m.Data]
      gainedSectorData := st.gainedSectorData ++ [m.Data]
      SectorRoots := st.SectorRoots.take m.SectorIndex
        ++ env.merkleRoot m.Data :: st.SectorRoots.drop m.SectorIndex } := by
  have hs : sub64 d env.blockHeight = d - env.blockHeight :=
    sub64_eq_of_le d env.blockHeight hd hh hle
  have h1 : ¬ st.SectorRoots.length < m.SectorIndex := by omega
  have h2 : ¬ env.sectorSize < m.Data.length := by omega
  simp [applyModification, hty, hlen, hs, h1, h2]

/-- Witness for C6: a concrete valid Insert (deadline 100, height 10,
sector size 4) accrues exactly the amounts of the formula. -/
theorem insert_finances_exact_witness :
    applyModification envW 100
      (initialBatchState ⟨[42], 0, 0, 0, 100⟩)
      ⟨ActionType.actionInsert, 1, 0, [1, 2, 3, 4]⟩ = Except.ok
      { initialBatchState ⟨[42], 0, 0, 0, 100⟩ with
        bandwidthRevenue := 0 + 3 * 4
        storageRevenue := 0 + 5 * ((100 - 10) * 4)
        collateralRisked := 0 + 7 * ((100 - 10) * 4)
        sectorsGained := [] ++ [envW.merkleRoot [1, 2, 3, 4]]
        gainedSectorData := [] ++ [[1, 2, 3, 4]]
        SectorRoots := [42].take 1 ++ envW.merkleRoot [1, 2, 3, 4] :: [42].drop 1 } :=
  insert_finances_exact envW 100 (initialBatchState ⟨[42], 0, 0, 0, 100⟩)
    ⟨ActionType.actionInsert, 1, 0, [1, 2, 3, 4]⟩
    rfl (by decide) rfl (by decide) (by decide) (by decide)

/-- C10: processing a valid Insert when the block height exceeds the proof
deadline `d` returns no error; the subtraction `proofDeadline - blockHeight`
is uint64 arithmetic with no guard, so `blocksRemaining` wraps modulo
`2 ^ 64` to `2 ^ 64 - (blockHeight - d)` and the accrued storage revenue
and risked collateral are the per-byte-block prices times that wrapped
value times the sector size. -/
theorem insert_past_deadline_wraps (env : Env) (d : Nat) (st : BatchState)
    (m : RevisionAction)
    (hty : m.actionType = ActionType.actionInsert)
    (hidx : m.SectorIndex ≤ st.SectorRoots.length)
    (hlen : m.Data.length = env.sectorSize)
    (hd : d < U64) (hh : env.blockHeight < U64)
    (hlt : d < env.blockHeight) :
    applyModification env d st m = Except.ok { st with
      bandwidthRevenue := st.bandwidthRevenue
        + env.MinimumUploadBandwidthPrice * env.sectorSize
      storageRevenue := st.storageRevenue
        + env.MinimumStoragePrice * ((U64 - (env.blockHeight - d)) * env.sectorSize)
      collateralRisked := st.collateralRisked
        + env.Collateral * ((U64 - (env.blockHeight - d)) * env.sectorSize)
      sectorsGained := st.sectorsGained ++ [env.merkleRoot m.Data]
      gainedSectorData := st.gainedSectorData ++ [m.Data]
      SectorRoots := st.SectorRoots.take m.SectorIndex
        ++ env.merkleRoot m.Data :: st.SectorRoots.drop m.SectorIndex } := by
  have hs : sub64 d env.blockHeight = U64 - (env.blockHeight - d) :=
    sub64_eq_of_lt d env.blockHeight hd hh hlt
  have h1 : ¬ st.SectorRoots.length < m.SectorIndex := by omega
  have h2 : ¬ env.sectorSize < m.Data.length := by omega
  simp [applyModification, hty, hlen, hs, h1, h2]

/-- Witness for C10: a concrete Insert with deadline 3 and block height 10
succeeds and accrues amounts scaled by the wrapped `2 ^ 64 - 7`. -/
theorem insert_past_deadline_wraps_witness :
    applyModification envW 3
      (initialBatchState ⟨[42], 0, 0, 0, 3⟩)
      ⟨ActionType.actionInsert, 0, 0, [1, 2, 3, 4]⟩ = Except.ok
      { initialBatchState ⟨[42], 0, 0, 0, 3⟩ with
        bandwidthRevenue := 0 + 3 * 4
        storageRevenue := 0 + 5 * ((U64 - (10 - 3)) * 4)
        collateralRisked := 0 + 7 * ((U64 - (10 - 3)) * 4)
        sectorsGained := [] ++ [envW.merkleRoot [1, 2, 3, 4]]
        gainedSectorData := [] ++ [[1, 2, 3, 4]]
        SectorRoots := [42].take 0 ++ envW.merkleRoot [1, 2, 3, 4] :: [42].drop 0 } :=
  insert_past_deadline_wraps envW 3 (initialBatchState ⟨[42], 0, 0, 0, 3⟩)
    ⟨ActionType.actionInsert, 0, 0, [1, 2, 3, 4]⟩
    rfl (by decide) rfl (by decide) (by decide) (by decide)

/-- C1: the claim states the storage obligation is unchanged whenever the
round fails. In the source the batch loop mutates `so.SectorRoots` in place
(the comment "with the ability to reverse them" notwithstanding, nothing
reverses them), so a batch whose second Delete fails validation returns an
error with the first Delete already applied; and the three counters are
added to before `modifyStorageObligation`, so a failing commit returns an
error with the counters already increased. Both failing rounds leave the
obligation mutated. -/
theorem round_error_leaves_visible_mutation :
    (managedRevisionIteration envW oracleC1 soW).outcome
        = some (RoundError.revErr RevErr.errBadModificationIndex) ∧
    (managedRevisionIteration envW oracleC1 soW).so.SectorRoots = [] ∧
    soW.SectorRoots = [42] ∧
    (managedRevisionIteration envW oracleC1b soW).outcome
        = some RoundError.commitFailed ∧
    (managedRevisionIteration envW oracleC1b soW).so.AnticipatedRevenue = 1801 ∧
    soW.AnticipatedRevenue = 1 :=
  ⟨rfl, rfl, rfl, rfl, rfl, rfl⟩

/-- C3 counterexample: on an otherwise successful round whose renter
signature claims to cover the whole transaction, the session ends with that
error but, contrary to the claim, no rejection frame is ever written: the
wire trace contains no rejection at all. -/
theorem overreach_writes_no_rejection_frame :
    (managedRevisionIteration envW oracleC3 soW).outcome
        = some RoundError.wholeTransactionCovered ∧
    (managedRevisionIteration envW oracleC3 soW).writes.filter
        WireMsg.isRejection = [] :=
  ⟨rfl, rfl⟩

/-- C3 as amended: on a round that reaches the signature-validation step, a
signed transaction failing standalone validation causes a rejection frame
carrying that reason to be written last and the session to end with that
error; a renter signature claiming to cover the whole transaction ends the
session with that error directly, with no rejection frame written. -/
theorem signature_step_rejection_behaviour (env : Env) (o : RoundOracle)
    (so : storageObligation) (mods : List RevisionAction)
    (rev : FileContractRevision) (sig : TransactionSignature)
    (h1 : o.settingsRPCOk = true)
    (h2 : o.acceptanceRead = none)
    (h3 : o.modificationsRead = some mods)
    (h4 : (processModificationBatch env so.proofDeadline mods
        (initialBatchState so)).2 = none)
    (h5 : o.revisionRead = some rev)
    (h6 : o.acceptanceWriteOk = true)
    (h7 : o.renterSigRead = some sig)
    (h8 : o.signOk = true) :
    (o.standaloneValid = false →
      (managedRevisionIteration env o so).outcome
          = some RoundError.standaloneInvalid ∧
      (managedRevisionIteration env o so).writes.getLast?
          = some (WireMsg.rejection RoundError.standaloneInvalid)) ∧
    (o.standaloneValid = true → sig.WholeTransaction = true →
      (managedRevisionIteration env o so).outcome
          = some RoundError.wholeTransactionCovered ∧
      (managedRevisionIteration env o so).writes.filter
          WireMsg.isRejection = []) := by
  constructor
  · intro hsv
    have hw : (managedRevisionIteration env o so).writes
        = [WireMsg.settings, WireMsg.acceptance,
            WireMsg.rejection RoundError.standaloneInvalid] := by
      simp [managedRevisionIteration, writeNegotiationRejection,
        verifyRevision, h1, h2, h3, h4, h5, h6, h7, h8, hsv]
    have ho : (managedRevisionIteration env o so).outcome
        = some RoundError.standaloneInvalid := by
      simp [managedRevisionIteration, writeNegotiationRejection,
        verifyRevision, h1, h2, h3, h4, h5, h6, h7, h8, hsv]
    exact ⟨ho, by rw [hw]; rfl⟩
  · intro hsv hwt
    have hw : (managedRevisionIteration env o so).writes
        = [WireMsg.settings, WireMsg.acceptance] := by
      simp [managedRevisionIteration, writeNegotiationRejection,
        verifyRevision, h1, h2, h3, h4, h5, h6, h7, h8, hsv, hwt]
    have ho : (managedRevisionIteration env o so).outcome
        = some RoundError.wholeTransactionCovered := by
      simp [managedRevisionIteration, writeNegotiationRejection,
        verifyRevision, h1, h2, h3, h4, h5, h6, h7, h8, hsv, hwt]
    exact ⟨ho, by rw [hw]; rfl⟩

/-- Witness for the amended C3: on concrete rounds, a failing standalone
validation produces a trailing rejection frame and that error, and a
whole-transaction renter signature produces that error with no rejection
frame. -/
theorem signature_step_rejection_behaviour_witness :
    ((managedRevisionIteration envW oracleC3a soW).outcome
          = some RoundError.standaloneInvalid ∧
      (managedRevisionIteration envW oracleC3a soW).writes.getLast?
          = some (WireMsg.rejection RoundError.standaloneInvalid)) ∧
    ((managedRevisionIteration envW oracleC3 soW).outcome
          = some RoundError.wholeTransactionCovered ∧
      (managedRevisionIteration envW oracleC3 soW).writes.filter
          WireMsg.isRejection = []) :=
  ⟨(signature_step_rejection_behaviour envW oracleC3a soW [] ⟨0, 1⟩ ⟨false⟩
      rfl rfl rfl rfl rfl rfl rfl rfl).1 rfl,
    (signature_step_rejection_behaviour envW oracleC3 soW [] ⟨0, 1⟩ ⟨true⟩
      rfl rfl rfl rfl rfl rfl rfl rfl).2 rfl rfl⟩

/-- C4 counterexample: a modification of unrecognized type whose index is
out of bounds is reported as `errBadModificationIndex`, not as
`errUnknownModification` as the claim states — the index bound check runs
first and its else-branch also covers unrecognized types; likewise a Delete
with out-of-bounds index whose payload exceeds the sector size is reported
as `errBadModificationIndex`, not `errLargeSector`. -/
theorem unknown_type_bad_index_counterexample :
    applyModification envW 100 (initialBatchState ⟨[], 0, 0, 0, 100⟩)
        ⟨ActionType.actionOther, 0, 0, []⟩
        = Except.error RevErr.errBadModificationIndex ∧
    RevErr.errBadModificationIndex ≠ RevErr.errUnknownModification ∧
    applyModification envW 100 (initialBatchState ⟨[], 0, 0, 0, 100⟩)
        ⟨ActionType.actionDelete, 0, 0, [1, 1, 1, 1, 1]⟩
        = Except.error RevErr.errBadModificationIndex ∧
    RevErr.errBadModificationIndex ≠ RevErr.errLargeSector :=
  ⟨rfl, by decide, rfl, by decide⟩

/-- C4 as amended: the checks run in source order with earlier checks
taking precedence. An Insert with index strictly above the current length,
or any other modification (Delete, Modify or unrecognized) with index at or
above the current length, yields `errBadModificationIndex`; when the index
check passes, a payload longer than the sector size yields `errLargeSector`;
when both pass, an unrecognized type yields `errUnknownModification`. -/
theorem modification_error_precedence (env : Env) (d : Nat)
    (st : BatchState) (m : RevisionAction) :
    (m.actionType = ActionType.actionInsert →
      st.SectorRoots.length < m.SectorIndex →
      applyModification env d st m
        = Except.error RevErr.errBadModificationIndex) ∧
    (m.actionType ≠ ActionType.actionInsert →
      st.SectorRoots.length ≤ m.SectorIndex →
      applyModification env d st m
        = Except.error RevErr.errBadModificationIndex) ∧
    ((if m.actionType = ActionType.actionInsert then
        m.SectorIndex ≤ st.SectorRoots.length
      else m.SectorIndex < st.SectorRoots.length) →
      env.sectorSize < m.Data.length →
      applyModification env d st m = Except.error RevErr.errLargeSector) ∧
    ((if m.actionType = ActionType.actionInsert then
        m.SectorIndex ≤ st.SectorRoots.length
      else m.SectorIndex < st.SectorRoots.length) →
      m.Data.length ≤ env.sectorSize →
      m.actionType = ActionType.actionOther →
      applyModification env d st m
        = Except.error RevErr.errUnknownModification) := by
  refine ⟨?_, ?_, ?_, ?_⟩
  · intro hty hgt
    simp [applyModification, hty, hgt]
  · intro hty hge
    simp [applyModification, hty, hge]
  · intro hok hbig
    by_cases hty : m.actionType = ActionType.actionInsert
    · rw [if_pos hty] at hok
      have hi : ¬ st.SectorRoots.length < m.SectorIndex := by omega
      simp [applyModification, hty, hi, hbig]
    · rw [if_neg hty] at hok
      have hi : ¬ st.SectorRoots.length ≤ m.SectorIndex := by omega
      simp [applyModification, hty, hi, hbig]
  · intro hok hsz hty
    rw [if_neg (by simp [hty])] at hok
    have hi : ¬ st.SectorRoots.length ≤ m.SectorIndex := by omega
    have hb : ¬ env.sectorSize < m.Data.length := by omega
    simp [applyModification, hty, hi, hb]

/-- Witness for the amended C4: each of the four precedence cases evaluated
on concrete modifications against a one-root list. -/
theorem modification_error_precedence_witness :
    applyModification envW 100 (initialBatchState soW)
        ⟨ActionType.actionInsert, 2, 0, []⟩
        = Except.error RevErr.errBadModificationIndex ∧
    applyModification envW 100 (initialBatchState soW)
        ⟨ActionType.actionDelete, 1, 0, []⟩
        = Except.error RevErr.errBadModificationIndex ∧
    applyModification envW 100 (initialBatchState soW)
        ⟨ActionType.actionModify, 0, 0, [1, 2, 3, 4, 5]⟩
        = Except.error RevErr.errLargeSector ∧
    applyModification envW 100 (initialBatchState soW)
        ⟨ActionType.actionOther, 0, 0, []⟩
        = Except.error RevErr.errUnknownModification :=
  ⟨(modification_error_precedence envW 100 (initialBatchState soW)
      ⟨ActionType.actionInsert, 2, 0, []⟩).1 rfl (by decide),
    (modification_error_precedence envW 100 (initialBatchState soW)
      ⟨ActionType.actionDelete, 1, 0, []⟩).2.1 (by decide) (by decide),
    (modification_error_precedence envW 100 (initialBatchState soW)
      ⟨ActionType.actionModify, 0, 0, [1, 2, 3, 4, 5]⟩).2.2.1
      (by decide) (by decide),
    (modification_error_precedence envW 100 (initialBatchState soW)
      ⟨ActionType.actionOther, 0, 0, []⟩).2.2.2 (by decide) (by decide) rfl⟩

-- Helper: a list whose elements all equal `m` is determined up to
-- permutation: any permutation of it is the list itself.
theorem eq_of_perm_of_all_eq {α : Type} (m : α) (b₁ b₂ : List α)
    (hall : ∀ x ∈ b₁, x = m) (hperm : b₁.Perm b₂) : b₂ = b₁ := by
  have hr₁ : b₁ = List.replicate b₁.length m := List.eq_replicate_of_mem hall
  have hall₂ : ∀ x ∈ b₂, x = m := fun x hx => hall x (hperm.symm.subset hx)
  have hr₂ : b₂ = List.replicate b₂.length m := List.eq_replicate_of_mem hall₂
  rw [hr₁, hr₂, hperm.length_eq]

/-- C8: for a batch consisting only of copies of one Insert (or one Modify)
modification, the accumulated bandwidth revenue, storage revenue and risked
collateral of processing are independent of the order of the batch: any
permutation of such a batch produces the same three totals. -/
theorem batch_finances_order_independent (env : Env) (d : Nat)
    (m : RevisionAction) (b₁ b₂ : List RevisionAction) (st : BatchState)
    (hall : ∀ x ∈ b₁, x = m) (hperm : b₁.Perm b₂)
    (_hsame : m.actionType = ActionType.actionInsert
      ∨ m.actionType = ActionType.actionModify) :
    ((processModificationBatch env d b₁ st).1.bandwidthRevenue,
      (processModificationBatch env d b₁ st).1.storageRevenue,
      (processModificationBatch env d b₁ st).1.collateralRisked) =
    ((processModificationBatch env d b₂ st).1.bandwidthRevenue,
      (processModificationBatch env d b₂ st).1.storageRevenue,
      (processModificationBatch env d b₂ st).1.collateralRisked) := by
  rw [eq_of_perm_of_all_eq m b₁ b₂ hall hperm]

/-- Witness for C8: a two-element batch of identical Inserts, compared with
its (identical) permutation, yields the same totals. -/
theorem batch_finances_order_independent_witness :
    ((processModificationBatch envW 100
        [⟨ActionType.actionInsert, 0, 0, [1, 2, 3, 4]⟩,
          ⟨ActionType.actionInsert, 0, 0, [1, 2, 3, 4]⟩]
        (initialBatchState soW)).1.bandwidthRevenue,
      (processModificationBatch envW 100
        [⟨ActionType.actionInsert, 0, 0, [1, 2, 3, 4]⟩,
          ⟨ActionType.actionInsert, 0, 0, [1, 2, 3, 4]⟩]
        (initialBatchState soW)).1.storageRevenue,
      (processModificationBatch envW 100
        [⟨ActionType.actionInsert, 0, 0, [1, 2, 3, 4]⟩,
          ⟨ActionType.actionInsert, 0, 0, [1, 2, 3, 4]⟩]
        (initialBatchState soW)).1.collateralRisked) =
    ((processModificationBatch envW 100
        [⟨ActionType.actionInsert, 0, 0, [1, 2, 3, 4]⟩,
          ⟨ActionType.actionInsert, 0, 0, [1, 2, 3, 4]⟩]
        (initialBatchState soW)).1.bandwidthRevenue,
      (processModificationBatch envW 100
        [⟨ActionType.actionInsert, 0, 0, [1, 2, 3, 4]⟩,
          ⟨ActionType.actionInsert, 0, 0, [1, 2, 3, 4]⟩]
        (initialBatchState soW)).1.storageRevenue,
      (processModificationBatch envW 100
        [⟨ActionType.actionInsert, 0, 0, [1, 2, 3, 4]⟩,
          ⟨ActionType.actionInsert, 0, 0, [1, 2, 3, 4]⟩]
        (initialBatchState soW)).1.collateralRisked) :=
  batch_finances_order_independent envW 100
    ⟨ActionType.actionInsert, 0, 0, [1, 2, 3, 4]⟩
    [⟨ActionType.actionInsert, 0, 0, [1, 2, 3, 4]⟩,
      ⟨ActionType.actionInsert, 0, 0, [1, 2, 3, 4]⟩]
    [⟨ActionType.actionInsert, 0, 0, [1, 2, 3, 4]⟩,
      ⟨ActionType.actionInsert, 0, 0, [1, 2, 3, 4]⟩]
    (initialBatchState soW) (by decide) (List.Perm.refl _) (Or.inl rfl)

/-- C5: an Insert at index `i ≤ n` with an in-bounds payload either has a
payload whose length differs from the sector size and yields
`errBadSectorSize`, or succeeds with a root list of length `n + 1` whose
element at `i` is the content hash of the payload, elements below `i`
unchanged and elements from `i` on shifted up by one, the new hash and its
payload recorded as gained. -/
theorem insert_shifts_roots (env : Env) (d : Nat) (st : BatchState)
    (m : RevisionAction)
    (hty : m.actionType = ActionType.actionInsert)
    (hidx : m.SectorIndex ≤ st.SectorRoots.length)
    (hsmall : m.Data.length ≤ env.sectorSize) :
    (m.Data.length ≠ env.sectorSize →
      applyModification env d st m = Except.error RevErr.errBadSectorSize) ∧
    (m.Data.length = env.sectorSize →
      ∃ st₁, applyModification env d st m = Except.ok st₁ ∧
        st₁.SectorRoots.length = st.SectorRoots.length + 1 ∧
        st₁.SectorRoots.getD m.SectorIndex 0 = env.merkleRoot m.Data ∧
        (∀ j, j < m.SectorIndex →
          st₁.SectorRoots.getD j 0 = st.SectorRoots.getD j 0) ∧
        (∀ j, m.SectorIndex ≤ j → j < st.SectorRoots.length →
          st₁.SectorRoots.getD (j + 1) 0 = st.SectorRoots.getD j 0) ∧
        st₁.sectorsGained = st.sectorsGained ++ [env.merkleRoot m.Data] ∧
        st₁.gainedSectorData = st.gainedSectorData ++ [m.Data]) := by
  have h1 : ¬ st.SectorRoots.length < m.SectorIndex := by omega
  have h2 : ¬ env.sectorSize < m.Data.length := by omega
  have ht : (st.SectorRoots.take m.SectorIndex).length = m.SectorIndex := by
    rw [List.length_take]; omega
  constructor
  · intro hne
    simp [applyModification, hty, h1, h2, hne]
  · intro heq
    refine ⟨{ st with
        bandwidthRevenue := st.bandwidthRevenue
          + env.MinimumUploadBandwidthPrice * env.sectorSize
        storageRevenue := st.storageRevenue
          + env.MinimumStoragePrice * (sub64 d env.blockHeight * env.sectorSize)
        collateralRisked := st.collateralRisked
          + env.Collateral * (sub64 d env.blockHeight * env.sectorSize)
        sectorsGained := st.sectorsGained ++ [env.merkleRoot m.Data]
        gainedSectorData := st.gainedSectorData ++ [m.Data]
        SectorRoots := st.SectorRoots.take m.SectorIndex
          ++ env.merkleRoot m.Data :: st.SectorRoots.drop m.SectorIndex },
      by simp [applyModification, hty, h1, h2, heq], ?_, ?_, ?_, ?_, rfl, rfl⟩
    · simp only [List.length_append, List.length_cons, List.length_drop, ht]
      omega
    · rw [List.getD_eq_getElem?_getD, List.getElem?_append_right ht.le, ht,
        Nat.sub_self, List.getElem?_cons_zero]
      rfl
    · intro j hj
      rw [List.getD_eq_getElem?_getD, List.getD_eq_getElem?_getD,
        List.getElem?_append, if_pos (by rw [ht]; exact hj),
        List.getElem?_take, if_pos hj]
    · intro j hij hjn
      rw [List.getD_eq_getElem?_getD, List.getD_eq_getElem?_getD,
        List.getElem?_append_right (by rw [ht]; omega), ht]
      have hstep : j + 1 - m.SectorIndex = (j - m.SectorIndex) + 1 := by omega
      rw [hstep, List.getElem?_cons_succ, List.getElem?_drop]
      have hj : m.SectorIndex + (j - m.SectorIndex) = j := by omega
      rw [hj]

/-- Witness for C5: a concrete Insert at index 1 into a two-root list
satisfies every conclusion of the success case. -/
theorem insert_shifts_roots_witness :
    ∃ st₁, applyModification envW 100
        (initialBatchState ⟨[50, 60], 0, 0, 0, 100⟩)
        ⟨ActionType.actionInsert, 1, 0, [1, 2, 3, 4]⟩ = Except.ok st₁ ∧
      st₁.SectorRoots.length
          = (initialBatchState ⟨[50, 60], 0, 0, 0, 100⟩).SectorRoots.length + 1 ∧
      st₁.SectorRoots.getD 1 0 = envW.merkleRoot [1, 2, 3, 4] ∧
      (∀ j, j < 1 →
        st₁.SectorRoots.getD j 0
          = (initialBatchState ⟨[50, 60], 0, 0, 0, 100⟩).SectorRoots.getD j 0) ∧
      (∀ j, 1 ≤ j →
        j < (initialBatchState ⟨[50, 60], 0, 0, 0, 100⟩).SectorRoots.length →
        st₁.SectorRoots.getD (j + 1) 0
          = (initialBatchState ⟨[50, 60], 0, 0, 0, 100⟩).SectorRoots.getD j 0) ∧
      st₁.sectorsGained
          = (initialBatchState ⟨[50, 60], 0, 0, 0, 100⟩).sectorsGained
            ++ [envW.merkleRoot [1, 2, 3, 4]] ∧
      st₁.gainedSectorData
          = (initialBatchState ⟨[50, 60], 0, 0, 0, 100⟩).gainedSectorData
            ++ [[1, 2, 3, 4]] :=
  (insert_shifts_roots envW 100 (initialBatchState ⟨[50, 60], 0, 0, 0, 100⟩)
    ⟨ActionType.actionInsert, 1, 0, [1, 2, 3, 4]⟩
    rfl (by decide) (by decide)).2 rfl

/-- C7: a Modify at a valid index with the store returning the full sector
for the current hash either has an offset/length combination exceeding the
sector size and yields `errIllegalOffsetAndLength`, or succeeds: the stored
sector is overlaid with the data at the offset, the hash at the index is
replaced by the content hash of the resulting sector, the old hash is
recorded as removed and the new hash with the full new sector as gained,
and only bandwidth revenue accrues. The bound `sectorSize < 2 ^ 63` holds
for the real fixed sector size and rules out uint64 wrap in the
offset-plus-length check. -/
theorem modify_overlay_semantics (env : Env) (d : Nat) (st : BatchState)
    (m : RevisionAction) (sector : List Nat)
    (hty : m.actionType = ActionType.actionModify)
    (hidx : m.SectorIndex < st.SectorRoots.length)
    (hlen : m.Data.length ≤ env.sectorSize)
    (hss : env.sectorSize < 2 ^ 63)
    (hsec : env.readSector (st.SectorRoots.getD m.SectorIndex 0) = some sector)
    (hseclen : sector.length = env.sectorSize) :
    (env.sectorSize < m.Offset ∨ env.sectorSize < m.Offset + m.Data.length →
      applyModification env d st m
        = Except.error RevErr.errIllegalOffsetAndLength) ∧
    (m.Offset + m.Data.length ≤ env.sectorSize →
      applyModification env d st m = Except.ok { st with
        bandwidthRevenue := st.bandwidthRevenue
          + env.MinimumUploadBandwidthPrice * env.sectorSize
        sectorsRemoved := st.sectorsRemoved
          ++ [st.SectorRoots.getD m.SectorIndex 0]
        sectorsGained := st.sectorsGained
          ++ [env.merkleRoot (sector.take m.Offset ++ m.Data
              ++ sector.drop (m.Offset + m.Data.length))]
        gainedSectorData := st.gainedSectorData
          ++ [sector.take m.Offset ++ m.Data
              ++ sector.drop (m.Offset + m.Data.length)]
        SectorRoots := st.SectorRoots.set m.SectorIndex
          (env.merkleRoot (sector.take m.Offset ++ m.Data
            ++ sector.drop (m.Offset + m.Data.length))) }) := by
  have h1 : ¬ st.SectorRoots.length ≤ m.SectorIndex := by omega
  have h2 : ¬ env.sectorSize < m.Data.length := by omega
  constructor
  · intro hbad
    by_cases ho : env.sectorSize < m.Offset
    · simp [applyModification, hty, h1, h2, ho]
    · have ha : add64 m.Offset m.Data.length = m.Offset + m.Data.length := by
        unfold add64 U64
        rw [Nat.mod_eq_of_lt (by omega)]
      have ho2 : env.sectorSize < m.Offset + m.Data.length := by omega
      simp [applyModification, hty, h1, h2, ho, ha, ho2]
  · intro hle
    have ho : ¬ env.sectorSize < m.Offset := by omega
    have ha : add64 m.Offset m.Data.length = m.Offset + m.Data.length := by
      unfold add64 U64
      rw [Nat.mod_eq_of_lt (by omega)]
    have hno : ¬ env.sectorSize < m.Offset + m.Data.length := by omega
    have hdt : m.Data.take (sector.length - m.Offset) = m.Data :=
      List.take_of_length_le (by omega)
    have hsec₁ : env.readSector (st.SectorRoots[m.SectorIndex]?.getD 0)
        = some sector := by
      rw [← List.getD_eq_getElem?_getD]; exact hsec
    simp [applyModification, hty, h1, h2, ho, ha, hno, hsec₁, goCopy, hdt]

/-- Witness for C7: a concrete Modify at index 0, offset 1, data of length
2 on the stored sector `[9, 8, 7, 6]` produces exactly the overlaid sector
and accounting of the success case. -/
theorem modify_overlay_semantics_witness :
    applyModification envW 100 (initialBatchState soW)
        ⟨ActionType.actionModify, 0, 1, [5, 5]⟩
      = Except.ok { initialBatchState soW with
        bandwidthRevenue := (initialBatchState soW).bandwidthRevenue
          + envW.MinimumUploadBandwidthPrice * envW.sectorSize
        sectorsRemoved := (initialBatchState soW).sectorsRemoved
          ++ [(initialBatchState soW).SectorRoots.getD 0 0]
        sectorsGained := (initialBatchState soW).sectorsGained
          ++ [envW.merkleRoot (([9, 8, 7, 6] : List Nat).take 1 ++ [5, 5]
              ++ ([9, 8, 7, 6] : List Nat).drop (1 + 2))]
        gainedSectorData := (initialBatchState soW).gainedSectorData
          ++ [([9, 8, 7, 6] : List Nat).take 1 ++ [5, 5]
              ++ ([9, 8, 7, 6] : List Nat).drop (1 + 2)]
        SectorRoots := (initialBatchState soW).SectorRoots.set 0
          (envW.merkleRoot (([9, 8, 7, 6] : List Nat).take 1 ++ [5, 5]
            ++ ([9, 8, 7, 6] : List Nat).drop (1 + 2))) } :=
  (modify_overlay_semantics envW 100 (initialBatchState soW)
    ⟨ActionType.actionModify, 0, 1, [5, 5]⟩ [9, 8, 7, 6]
    rfl (by decide) (by decide) (by decide) rfl rfl).2 (by decide)

-- Helper: the event trace of the revision loop is a run of round events
-- only; in particular it contains no lock events.
theorem revisionLoop_events_replicate (env : Env) (os : List RoundOracle) :
    ∀ so, ∃ k,
      (revisionLoop env os so).2.1 = List.replicate k SessionEvent.roundRun := by
  induction os with
  | nil => intro so; exact ⟨0, rfl⟩
  | cons o os ih =>
    intro so
    rw [revisionLoop]
    split
    · exact ⟨1, rfl⟩
    · exact ⟨1, rfl⟩
    · rename_i so₁ writes heq
      obtain ⟨k, hk⟩ := ih so₁
      refine ⟨k + 1, ?_⟩
      simp [hk, List.replicate_succ]

/-- C9: in every session whose obligation fetch and lock acquisition
succeed, the lock release event occurs exactly once in the session trace
and is its final event, whatever the rounds do — peer stop, round errors,
or running out the clock — so no exit path terminates the session while
still holding the obligation lock. -/
theorem obligation_lock_released_once (env : Env) (so : storageObligation)
    (oracles : List RoundOracle) :
    (managedRPCReviseContract env (some so) true oracles).1.count
        SessionEvent.lockReleased = 1 ∧
    (managedRPCReviseContract env (some so) true oracles).1.getLast?
        = some SessionEvent.lockReleased := by
  obtain ⟨k, hk⟩ := revisionLoop_events_replicate env oracles so
  have hev : (managedRPCReviseContract env (some so) true oracles).1
      = SessionEvent.lockAcquired ::
        (List.replicate k SessionEvent.roundRun ++ [SessionEvent.lockReleased]) := by
    simp [managedRPCReviseContract, hk]
  constructor
  · rw [hev]
    simp [List.count_cons, List.count_append, List.count_replicate]
  · rw [hev, ← List.cons_append, List.getLast?_concat]

end SiaHost
